import Mathlib

/-!
Verification of the time-domain EM source module
(SimPEG/electromagnetics/time_domain/sources.py): the waveform family and
the source-term / initial-field computations for MagDipole, CircularLoop
and LineCurrent transmitters.

The embedding follows the Python source.  Field vectors (numpy arrays) are
modelled as functions `Fin n → ℚ` for one ambient dimension `n` (Python
arrays are untyped in their shapes); the mesh differential operators, the
mass matrices and the external sparse solver supplied by the simulation
collaborator are modelled as abstract functions on such vectors, stored in
`Mesh` / `Simulation` records.  The algebraic zero sentinel (`Zero()` from
SimPEG utils) is the `FV.zero` constructor; Python exceptions are the
`PyError` type inside `Except`; Python `None` fall-through returns are
`Option.none`.  The waveform constructor / property-setter protocol is
modelled over a small `PyVal` type so that `isinstance` validation and the
attribute dictionary are represented faithfully.
-/

/-- Python exception kinds raised by this module (payload messages elided). -/
inductive PyError
  | notImplementedError
  | valueError
  | nameError
  | typeError
  | attributeError
  deriving DecidableEq, Repr

/-- A Python value as passed to the waveform constructors and setters. -/
inductive PyVal
  | bool (b : Bool)
  | int (z : ℤ)
  | float (q : ℚ)
  | str
  | pynone
  deriving DecidableEq, Repr

/-- The attribute dictionary of a `BaseWaveform` instance: each backing
attribute is `none` until the corresponding setter stores it. -/
structure WaveformAttrs where
  hifAttr : Option Bool
  offTimeAttr : Option ℚ
  epsilonAttr : Option ℚ
  peakTimeAttr : Option ℚ
  deriving DecidableEq, Repr

/-- A freshly allocated waveform object, before `__init__` runs. -/
def emptyAttrs : WaveformAttrs :=
  { hifAttr := none, offTimeAttr := none, epsilonAttr := none, peakTimeAttr := none }

/-- Setter `BaseWaveform.has_initial_fields`: requires a `bool`, stores it. -/
def setHasInitialFields (st : WaveformAttrs) (value : PyVal) : Except PyError WaveformAttrs :=
  match value with
  | .bool b => .ok { st with hifAttr := some b }
  | _ => .error .valueError

/-- Setter `BaseWaveform.off_time`: an `int` (or `bool`, a Python `int`
subtype) is converted to `float`; a non-`float` raises `ValueError`; in the
accepting branch the source executes `self._off_time = off_time`, and the
name `off_time` is not defined in the setter scope, so a `NameError` is
raised and nothing is stored. -/
def setOffTime (_st : WaveformAttrs) (value : PyVal) : Except PyError WaveformAttrs :=
  let value' := match value with
    | .int z => PyVal.float z
    | .bool b => PyVal.float (if b then 1 else 0)
    | v => v
  match value' with
  | .float _ => .error .nameError
  | _ => .error .valueError
  -- the `.ok` branch is unreachable in the source: `st` is never updated

/-- Setter `BaseWaveform.epsilon`: requires a `float`, raises `ValueError`
when the value is negative (the guard is `value < 0`, so `0.0` passes), and
then returns without assigning `self._epsilon`: the attribute is never
stored. -/
def setEpsilon (st : WaveformAttrs) (value : PyVal) : Except PyError WaveformAttrs :=
  match value with
  | .float q => if q < 0 then .error .valueError else .ok st
  | _ => .error .valueError

/-- Setter `VTEMWaveform.peak_time`: requires a `float`; reads
`self.off_time` (an `AttributeError` if `_off_time` was never stored);
raises `ValueError` when `value > self.off_time` (strict, so equality
passes); in the accepting branch executes `self._peak_time = peak_time`
where the name `peak_time` is undefined, raising `NameError`. -/
def setPeakTime (st : WaveformAttrs) (value : PyVal) : Except PyError WaveformAttrs :=
  match value with
  | .float q =>
    match st.offTimeAttr with
    | none => .error .attributeError
    | some ot => if ot < q then .error .valueError else .error .nameError
  | _ => .error .valueError

/-- Setter `VTEMWaveform.ramp_on_rate`: converts `int` to `float`, rejects
non-floats, and stores nothing (the source has no assignment). -/
def setRampOnRate (st : WaveformAttrs) (value : PyVal) : Except PyError WaveformAttrs :=
  let value' := match value with
    | .int z => PyVal.float z
    | .bool b => PyVal.float (if b then 1 else 0)
    | v => v
  match value' with
  | .float _ => .ok st
  | _ => .error .valueError

/-- Constructor `BaseWaveform.__init__(has_initial_fields, off_time, epsilon)`:
runs the three setters in order on a fresh object. -/
def BaseWaveform.init (hif offT eps : PyVal) : Except PyError WaveformAttrs := do
  let s1 ← setHasInitialFields emptyAttrs hif
  let s2 ← setOffTime s1 offT
  setEpsilon s2 eps

/-- Constructor `StepOffWaveform.__init__(off_time)`: delegates to the base
constructor with `has_initial_fields=True` and the default `epsilon=1e-9`. -/
def StepOffWaveform.init (offT : PyVal) : Except PyError WaveformAttrs :=
  BaseWaveform.init (.bool true) offT (.float (1 / 1000000000))

/-- Constructor `VTEMWaveform.__init__(off_time, peak_time, ramp_on_rate)`:
runs the base constructor with `has_initial_fields=False` and the supplied
`off_time` (default `epsilon`), then the `peak_time` and `ramp_on_rate`
setters. -/
def VTEMWaveform.init (offT peakT rate : PyVal) : Except PyError WaveformAttrs := do
  let s1 ← setHasInitialFields emptyAttrs (.bool false)
  let s2 ← setOffTime s1 offT
  let s3 ← setEpsilon s2 (.float (1 / 1000000000))
  let s4 ← setPeakTime s3 peakT
  setRampOnRate s4 rate

/-- Semantic state of a `StepOffWaveform` (the `off_time` and `epsilon`
attribute values its `eval` reads). -/
structure StepOffWaveform where
  off_time : ℚ
  epsilon : ℚ
  deriving DecidableEq, Repr

/-- `StepOffWaveform.__init__` passes `has_initial_fields=True` to the base
constructor. -/
def StepOffWaveform.has_initial_fields (_w : StepOffWaveform) : Bool := true

/-- `StepOffWaveform.eval`: 1.0 when `abs(time - 0.0) < self.epsilon`,
else 0.0. -/
def StepOffWaveform.eval (w : StepOffWaveform) (time : ℚ) : ℚ :=
  if |time - 0| < w.epsilon then 1 else 0

/-- Parameters of a `TrapezoidWaveform`: the ramp-on and ramp-off
intervals, each a pair (start, end).  Times and amplitudes are real
numbers (the quarter-sine variants evaluate `np.sin` / `np.cos`). -/
structure TrapezoidWaveform where
  ramp_on : ℝ × ℝ
  ramp_off : ℝ × ℝ

/-- `TrapezoidWaveform.eval`: 0 before `ramp_on[0]`; linear ramp on
`[ramp_on[0], ramp_on[1]]` (inclusive on both ends); 1 on the open
plateau; linear ramp off on `[ramp_off[0], ramp_off[1]]` (inclusive); else 0. -/
noncomputable def TrapezoidWaveform.eval (w : TrapezoidWaveform) (time : ℝ) : ℝ :=
  if time < w.ramp_on.1 then 0
  else if w.ramp_on.1 ≤ time ∧ time ≤ w.ramp_on.2 then
    (1 / (w.ramp_on.2 - w.ramp_on.1)) * (time - w.ramp_on.1)
  else if w.ramp_on.2 < time ∧ time < w.ramp_off.1 then 1
  else if w.ramp_off.1 ≤ time ∧ time ≤ w.ramp_off.2 then
    1 - (1 / (w.ramp_off.2 - w.ramp_off.1)) * (time - w.ramp_off.1)
  else 0

/-- `TriangularWaveform` is a `TrapezoidWaveform` with
`ramp_on = [0, peak_time]` and `ramp_off = [peak_time, off_time]`; its
`eval` is inherited unchanged from `TrapezoidWaveform`. -/
def TriangularWaveform.toTrapezoid (peak_time off_time : ℝ) : TrapezoidWaveform :=
  { ramp_on := (0, peak_time), ramp_off := (peak_time, off_time) }

/-- `QuarterSineRampOnWaveform.eval`: quarter-sine ramp on, then the same
plateau and linear ramp off as the trapezoid. -/
noncomputable def QuarterSineRampOnWaveform.eval (w : TrapezoidWaveform) (time : ℝ) : ℝ :=
  if time < w.ramp_on.1 then 0
  else if w.ramp_on.1 ≤ time ∧ time ≤ w.ramp_on.2 then
    Real.sin (Real.pi / 2 * (1 / (w.ramp_on.2 - w.ramp_on.1)) * (time - w.ramp_on.1))
  else if w.ramp_on.2 < time ∧ time < w.ramp_off.1 then 1
  else if w.ramp_off.1 ≤ time ∧ time ≤ w.ramp_off.2 then
    1 - (1 / (w.ramp_off.2 - w.ramp_off.1)) * (time - w.ramp_off.1)
  else 0

/-- `HalfSineWaveform.eval`: quarter-sine ramp on, plateau, quarter-cosine
ramp off. -/
noncomputable def HalfSineWaveform.eval (w : TrapezoidWaveform) (time : ℝ) : ℝ :=
  if time < w.ramp_on.1 then 0
  else if w.ramp_on.1 ≤ time ∧ time ≤ w.ramp_on.2 then
    Real.sin ((Real.pi / 2) * ((time - w.ramp_on.1) / (w.ramp_on.2 - w.ramp_on.1)))
  else if w.ramp_on.2 < time ∧ time < w.ramp_off.1 then 1
  else if w.ramp_off.1 ≤ time ∧ time ≤ w.ramp_off.2 then
    Real.cos ((Real.pi / 2) * ((time - w.ramp_off.1) / (w.ramp_off.2 - w.ramp_off.1)))
  else 0

/-- A field vector living on mesh entities (numpy 1-d array of rationals). -/
abbrev Vec (n : ℕ) := Fin n → ℚ

/-- The waveform interface the sources consume: the initial-fields flag and
the pure amplitude function `eval(time)`. -/
structure Waveform where
  has_initial_fields : Bool
  eval : ℚ → ℚ

/-- The mesh collaborator: differential operators, their transposes, cell
volumes, and the face inner-product builders parameterized by a scalar
physical property (`invMat=True` for the second). -/
structure Mesh (n : ℕ) where
  edgeCurl : Vec n → Vec n
  edgeCurlT : Vec n → Vec n
  faceDiv : Vec n → Vec n
  faceDivT : Vec n → Vec n
  nodalGrad : Vec n → Vec n
  nodalGradT : Vec n → Vec n
  vol : Vec n
  getFaceInnerProduct : ℚ → Vec n → Vec n
  getFaceInnerProductInv : ℚ → Vec n → Vec n

/-- `sdiag(d) * v`: apply the diagonal matrix of `d` to `v`. -/
def sdiag {n : ℕ} (d v : Vec n) : Vec n := fun i => d i * v i

/-- The simulation collaborator: mesh, formulation tag (the source reads
both `simulation.formulation` and `simulation._formulation`, which the
simulation defines as the same string), field type, time steps, the
permeability model `mu` and its inverse `mui`, the mass matrices and their
transposes, the factored DC operator `Adcinv` with its derivative
`getAdcDeriv(phi, v, adjoint)`, the resistivity mass-matrix derivative
`MfRhoIDeriv(u, v, adjoint)`, and the sparse-solve factory `solver(A)`. -/
structure Simulation (n : ℕ) where
  mesh : Mesh n
  formulation : String
  fieldType : String
  time_steps : List ℚ
  mu : Vec n
  mui : Vec n
  MfMuiI : Vec n → Vec n
  MeMuI : Vec n → Vec n
  MeMuIT : Vec n → Vec n
  MfRhoI : Vec n → Vec n
  MfRhoIT : Vec n → Vec n
  Adcinv : Vec n → Vec n
  getAdcDeriv : Vec n → Vec n → Bool → Vec n
  MfRhoIDeriv : Vec n → Vec n → Bool → Vec n
  solver : (Vec n → Vec n) → Vec n → Vec n

/-- A field value: either the algebraic zero sentinel (`Zero()` from SimPEG
utils) or a dense vector. -/
inductive FV (n : ℕ)
  | zero
  | vec (v : Vec n)
  deriving DecidableEq

/-- Sentinel addition: `Zero() + x = x`, `x + Zero() = x`. -/
def fvAdd {n : ℕ} : FV n → FV n → FV n
  | .zero, y => y
  | x, .zero => x
  | .vec a, .vec b => .vec (a + b)

/-- Sentinel subtraction: `Zero() - x = -x`, `x - Zero() = x`. -/
def fvSub {n : ℕ} : FV n → FV n → FV n
  | .zero, .zero => .zero
  | .zero, .vec b => .vec (-b)
  | .vec a, .zero => .vec a
  | .vec a, .vec b => .vec (a - b)

/-- Sentinel negation (`-1.0 * x`). -/
def fvNeg {n : ℕ} : FV n → FV n
  | .zero => .zero
  | .vec a => .vec (-a)

/-- Applying a matrix to a field value: a matrix times `Zero()` is `Zero()`. -/
def fvApp {n : ℕ} (f : Vec n → Vec n) : FV n → FV n
  | .zero => .zero
  | .vec a => .vec (f a)

/-- Read a field value as a plain array when it is consumed by a
collaborator expecting one (the sentinel broadcasts as 0.0). -/
def toVec {n : ℕ} : FV n → Vec n
  | .zero => 0
  | .vec a => a

/-- A MagDipole (or CircularLoop) source: background permeability `mu`,
dipole moment, waveform, and the analytic vector potential `_aSrc`.
`aSrcFun mesh formulation` abstracts the external geoana closed form
(`MagneticDipoleWholeSpace` / `CircularLoopWholeSpace.vector_potential`)
sampled on the formulation-appropriate grid locations of the mesh
(`_srcFct` composed with the grid selection of `_aSrc`); the mesh and the
formulation are the only simulation inputs `_aSrc` reads.  `CircularLoop`
differs only in the closed form behind `aSrcFun` and in deriving `moment`,
so this model covers both. -/
structure MagDipole (n : ℕ) where
  mu : ℚ
  moment : ℚ
  waveform : Waveform
  aSrcFun : Mesh n → String → Vec n

/-- `MagDipole._aSrc(simulation)`: the analytic vector potential sampled on
the simulation mesh grids selected by the formulation. -/
def MagDipole._aSrc {n : ℕ} (src : MagDipole n) (sim : Simulation n) : Vec n :=
  src.aSrcFun sim.mesh sim.formulation

/-- `MagDipole._bSrc(simulation)`: `edgeCurl * a` for the EB formulation,
`edgeCurl.T * a` for HJ; for any other formulation the local `C` is unbound
and Python raises (modelled as `nameError`). -/
def MagDipole._bSrc {n : ℕ} (src : MagDipole n) (sim : Simulation n) :
    Except PyError (Vec n) :=
  if sim.formulation = "EB" then .ok (sim.mesh.edgeCurl (MagDipole._aSrc src sim))
  else if sim.formulation = "HJ" then .ok (sim.mesh.edgeCurlT (MagDipole._aSrc src sim))
  else .error .nameError

/-- `MagDipole._getAmagnetostatic(simulation)`:
`faceDiv * MfMuiI * faceDiv.T` for EB, `NotImplementedError` otherwise. -/
def MagDipole._getAmagnetostatic {n : ℕ} (sim : Simulation n) :
    Except PyError (Vec n → Vec n) :=
  if sim.formulation = "EB" then
    .ok (fun v => sim.mesh.faceDiv (sim.MfMuiI (sim.mesh.faceDivT v)))
  else .error .notImplementedError

/-- The cached primary h-field `self._hp` set by `_rhs_magnetostatic`:
`getFaceInnerProduct(1/self.mu) * (edgeCurl * aSrc)`. -/
def MagDipole._hp {n : ℕ} (src : MagDipole n) (sim : Simulation n) : Vec n :=
  sim.mesh.getFaceInnerProduct (1 / src.mu)
    (sim.mesh.edgeCurl (MagDipole._aSrc src sim))

/-- `MagDipole._rhs_magnetostatic(simulation)`:
`-faceDiv * ((MfMuiI - MfMuipI) * hp)` for EB, where `MfMuipI` is
`getFaceInnerProduct(1/self.mu, invMat=True)`; `NotImplementedError`
otherwise. -/
def MagDipole._rhs_magnetostatic {n : ℕ} (src : MagDipole n) (sim : Simulation n) :
    Except PyError (Vec n) :=
  if sim.formulation = "EB" then
    .ok (-(sim.mesh.faceDiv
        (sim.MfMuiI (MagDipole._hp src sim) -
          sim.mesh.getFaceInnerProductInv (1 / src.mu) (MagDipole._hp src sim))))
  else .error .notImplementedError

/-- `MagDipole._phiSrc(simulation)`: solve the magnetostatic system through
the external solver factory. -/
def MagDipole._phiSrc {n : ℕ} (src : MagDipole n) (sim : Simulation n) :
    Except PyError (Vec n) := do
  let A ← MagDipole._getAmagnetostatic sim
  let rhs ← MagDipole._rhs_magnetostatic src sim
  pure (sim.solver A rhs)

/-- `MagDipole.bInitial(simulation)`: zero sentinel without initial fields;
the uncorrected `_bSrc` when `np.all(simulation.mu == self.mu)`; otherwise
the magnetostatically corrected field for EB and `NotImplementedError`
for HJ. -/
def MagDipole.bInitial {n : ℕ} (src : MagDipole n) (sim : Simulation n) :
    Except PyError (FV n) :=
  if src.waveform.has_initial_fields = false then .ok .zero
  else if ∀ i, sim.mu i = src.mu then do
    let b ← MagDipole._bSrc src sim
    pure (.vec b)
  else if sim.formulation = "EB" then do
    let phi ← MagDipole._phiSrc src sim
    let hs := sim.mesh.faceDivT phi
    let ht := MagDipole._hp src sim + hs
    pure (.vec (sim.MfMuiI ht))
  else .error .notImplementedError

/-- `MagDipole.s_e(simulation, time)`: the electric-type injection term,
translated branch for branch (the source computes `b = self._bSrc(...)`
before dispatching on the formulation, so an unknown formulation raises
inside `_bSrc`; an unknown field type inside a known formulation falls
through and returns Python `None`). -/
def MagDipole.s_e {n : ℕ} (src : MagDipole n) (sim : Simulation n) (time : ℚ) :
    Except PyError (Option (FV n)) := do
  let b ← MagDipole._bSrc src sim
  if sim.formulation = "EB" then
    let MfMui := sim.mesh.getFaceInnerProduct (1 / src.mu)
    if src.waveform.has_initial_fields = true ∧ time < sim.time_steps.getD 1 0 then
      if sim.fieldType = "b" then pure (some .zero)
      else if sim.fieldType = "e" then
        pure (some (.vec (sim.mesh.edgeCurlT (MfMui b))))
      else pure none
    else
      pure (some (.vec fun i => sim.mesh.edgeCurlT (MfMui b) i * src.waveform.eval time))
  else if sim.formulation = "HJ" then
    let h : Vec n := fun i => 1 / src.mu * b i
    if src.waveform.has_initial_fields = true ∧ time < sim.time_steps.getD 1 0 then
      if sim.fieldType = "h" then pure (some .zero)
      else if sim.fieldType = "j" then pure (some (.vec (sim.mesh.edgeCurl h)))
      else pure none
    else
      pure (some (.vec fun i => sim.mesh.edgeCurl h i * src.waveform.eval time))
  else pure none

/-- A LineCurrent (galvanic) source: wire current, waveform, and the
discretized injection vectors.  `mejsFun mesh` abstracts the external
`segmented_line_current_source_term(mesh, location)` and `mfjsFun mesh`
abstracts `line_through_faces(mesh, location, normalize_by_area=True)` —
both depend only on the mesh and the fixed wire path. -/
structure LineCurrent (n : ℕ) where
  current : ℚ
  waveform : Waveform
  mejsFun : Mesh n → Vec n
  mfjsFun : Mesh n → Vec n

/-- `LineCurrent.Mejs(simulation)`: `self.current * self._Mejs`. -/
def LineCurrent.Mejs {n : ℕ} (src : LineCurrent n) (sim : Simulation n) : Vec n :=
  fun i => src.current * src.mejsFun sim.mesh i

/-- `LineCurrent.Mfjs(simulation)`: `self.current * self._Mfjs`. -/
def LineCurrent.Mfjs {n : ℕ} (src : LineCurrent n) (sim : Simulation n) : Vec n :=
  fun i => src.current * src.mfjsFun sim.mesh i

/-- The local operator `Div = sdiag(vol) * faceDiv` used by the DC branch. -/
def Simulation.divDC {n : ℕ} (sim : Simulation n) : Vec n → Vec n :=
  fun v => sdiag sim.mesh.vol (sim.mesh.faceDiv v)

/-- The transpose `Div.T = faceDiv.T * sdiag(vol)` of `divDC`. -/
def Simulation.divDCT {n : ℕ} (sim : Simulation n) : Vec n → Vec n :=
  fun v => sim.mesh.faceDivT (sdiag sim.mesh.vol v)

/-- `LineCurrent.getRHSdc(simulation)`: `Grad.T * Mejs` for EB,
`sdiag(vol) * faceDiv * Mfjs` for HJ, and Python `None` (no else branch)
for any other formulation. -/
def LineCurrent.getRHSdc {n : ℕ} (src : LineCurrent n) (sim : Simulation n) :
    Option (Vec n) :=
  if sim.formulation = "EB" then some (sim.mesh.nodalGradT (LineCurrent.Mejs src sim))
  else if sim.formulation = "HJ" then some (sim.divDC (LineCurrent.Mfjs src sim))
  else none

/-- `LineCurrent.phiInitial(simulation)`: `Adcinv * getRHSdc` when the
waveform has initial fields (a `None` right-hand side would make the
product raise a `TypeError`), else the zero sentinel. -/
def LineCurrent.phiInitial {n : ℕ} (src : LineCurrent n) (sim : Simulation n) :
    Except PyError (FV n) :=
  if src.waveform.has_initial_fields = true then
    match LineCurrent.getRHSdc src sim with
    | some rhs => .ok (.vec (sim.Adcinv rhs))
    | none => .error .typeError
  else .ok .zero

/-- `LineCurrent._phiInitialDeriv(simulation, v, adjoint)`: the derivative
of `phiInitial`, reusing the factored `Adcinv` in both modes (the DC
operator is symmetric). -/
def LineCurrent._phiInitialDeriv {n : ℕ} (src : LineCurrent n) (sim : Simulation n)
    (v : Vec n) (adjoint : Bool) : Except PyError (FV n) :=
  if src.waveform.has_initial_fields = true then do
    let phi ← LineCurrent.phiInitial src sim
    if adjoint = true then
      pure (.vec (-(sim.getAdcDeriv (toVec phi) (sim.Adcinv v) true)))
    else
      pure (.vec (-(sim.Adcinv (sim.getAdcDeriv (toVec phi) v false))))
  else .ok .zero

/-- `LineCurrent.eInitial(simulation)`: `-nodalGrad * phiInitial` for EB
when the waveform has initial fields, `NotImplementedError` for other
formulations, zero sentinel without initial fields. -/
def LineCurrent.eInitial {n : ℕ} (src : LineCurrent n) (sim : Simulation n) :
    Except PyError (FV n) :=
  if src.waveform.has_initial_fields = true then
    if sim.formulation = "EB" then do
      let phi ← LineCurrent.phiInitial src sim
      pure (fvNeg (fvApp sim.mesh.nodalGrad phi))
    else .error .notImplementedError
  else .ok .zero

/-- `LineCurrent.jInitial(simulation)`: `-MfRhoI * (Div.T * phiInitial)`
for HJ when the waveform has initial fields, `NotImplementedError` for
other formulations, zero sentinel without initial fields. -/
def LineCurrent.jInitial {n : ℕ} (src : LineCurrent n) (sim : Simulation n) :
    Except PyError (FV n) :=
  if src.waveform.has_initial_fields = true then
    if sim.formulation = "HJ" then do
      let phi ← LineCurrent.phiInitial src sim
      pure (fvNeg (fvApp sim.MfRhoI (fvApp sim.divDCT phi)))
    else .error .notImplementedError
  else .ok .zero

/-- `LineCurrent.jInitialDeriv(simulation, v, adjoint)`: raises for
non-HJ formulations, returns the zero sentinel without initial fields,
otherwise composes `MfRhoIDeriv` and `_phiInitialDeriv` (in reverse order
with transposed factors in adjoint mode). -/
def LineCurrent.jInitialDeriv {n : ℕ} (src : LineCurrent n) (sim : Simulation n)
    (v : Vec n) (adjoint : Bool) : Except PyError (FV n) :=
  if sim.formulation ≠ "HJ" then .error .notImplementedError
  else if src.waveform.has_initial_fields = false then .ok .zero
  else do
    let phi ← LineCurrent.phiInitial src sim
    if adjoint = true then do
      let pd ← LineCurrent._phiInitialDeriv src sim (sim.divDC (sim.MfRhoIT v)) true
      pure (fvNeg (fvAdd (.vec (sim.MfRhoIDeriv (toVec (fvApp sim.divDCT phi)) v true)) pd))
    else do
      let pd ← LineCurrent._phiInitialDeriv src sim v false
      pure (fvNeg (fvAdd (.vec (sim.MfRhoIDeriv (toVec (fvApp sim.divDCT phi)) v false))
        (fvApp sim.MfRhoI (fvApp sim.divDCT pd))))

/-- The stabilized curl-curl operator assembled by `_getAmmr` under HJ:
`edgeCurl * MeMuI * edgeCurl.T - faceDiv.T * sdiag(1/vol * mui) * faceDiv`
(the stabilization from Chen, Haber and Oldenburg 2002; the code scales by
`simulation.mui`, the inverse permeability model). -/
def ammrOp {n : ℕ} (sim : Simulation n) : Vec n → Vec n :=
  fun w =>
    sim.mesh.edgeCurl (sim.MeMuI (sim.mesh.edgeCurlT w)) -
      sim.mesh.faceDivT (sdiag (fun i => 1 / sim.mesh.vol i * sim.mui i) (sim.mesh.faceDiv w))

/-- The operator the spec text claims `_getAmmr` assembles: the same
curl-curl part, but with the stabilization diagonal `(1/vol) * mu` scaled
by the permeability model itself.  Modelled from the spec for comparison
with `ammrOp`. -/
def ammrSpecClaimed {n : ℕ} (sim : Simulation n) : Vec n → Vec n :=
  fun w =>
    sim.mesh.edgeCurl (sim.MeMuI (sim.mesh.edgeCurlT w)) -
      sim.mesh.faceDivT (sdiag (fun i => 1 / sim.mesh.vol i * sim.mu i) (sim.mesh.faceDiv w))

/-- `LineCurrent._getAmmr(simulation)`: the stabilized curl-curl operator
(HJ only). -/
def LineCurrent._getAmmr {n : ℕ} (_src : LineCurrent n) (sim : Simulation n) :
    Except PyError (Vec n → Vec n) :=
  if sim.formulation ≠ "HJ" then .error .notImplementedError
  else .ok (ammrOp sim)

/-- `LineCurrent.s_e(simulation, time)`: the discretized injection vector
scaled by the waveform amplitude; Python `None` when the formulation is
neither EB nor HJ (no else branch). -/
def LineCurrent.s_e {n : ℕ} (src : LineCurrent n) (sim : Simulation n) (time : ℚ) :
    Option (FV n) :=
  if sim.formulation = "EB" then
    some (.vec fun i => LineCurrent.Mejs src sim i * src.waveform.eval time)
  else if sim.formulation = "HJ" then
    some (.vec fun i => LineCurrent.Mfjs src sim i * src.waveform.eval time)
  else none

/-- `LineCurrent._aInitial(simulation)`: solve
`Ammr * a = s_e(t=0) - jInitial` through the external solver factory
(a `None` from `s_e` would make the subtraction raise a `TypeError`). -/
def LineCurrent._aInitial {n : ℕ} (src : LineCurrent n) (sim : Simulation n) :
    Except PyError (Vec n) := do
  let A ← LineCurrent._getAmmr src sim
  let Ainv := sim.solver A
  let se := LineCurrent.s_e src sim 0
  let j ← LineCurrent.jInitial src sim
  match se with
  | some sev => pure (Ainv (toVec (fvSub sev j)))
  | none => .error .typeError

/-- `LineCurrent._aInitialDeriv(simulation, v, adjoint)`: derivative of the
`Ammr` solve, reusing the same factored solve in adjoint mode (`Ammr` is
symmetric). -/
def LineCurrent._aInitialDeriv {n : ℕ} (src : LineCurrent n) (sim : Simulation n)
    (v : Vec n) (adjoint : Bool) : Except PyError (FV n) := do
  let A ← LineCurrent._getAmmr src sim
  let Ainv := sim.solver A
  if adjoint = true then do
    let jd ← LineCurrent.jInitialDeriv src sim (Ainv v) true
    pure (fvNeg jd)
  else do
    let jd ← LineCurrent.jInitialDeriv src sim v false
    pure (fvNeg (fvApp Ainv jd))

/-- `LineCurrent.bInitial(simulation)`: raises for non-HJ formulations
(before any waveform check), returns the zero sentinel without initial
fields, else `edgeCurl.T * aInitial`. -/
def LineCurrent.bInitial {n : ℕ} (src : LineCurrent n) (sim : Simulation n) :
    Except PyError (FV n) :=
  if sim.formulation ≠ "HJ" then .error .notImplementedError
  else if src.waveform.has_initial_fields = false then .ok .zero
  else do
    let a ← LineCurrent._aInitial src sim
    pure (.vec (sim.mesh.edgeCurlT a))

/-- `LineCurrent.bInitialDeriv(simulation, v, adjoint)`. -/
def LineCurrent.bInitialDeriv {n : ℕ} (src : LineCurrent n) (sim : Simulation n)
    (v : Vec n) (adjoint : Bool) : Except PyError (FV n) :=
  if sim.formulation ≠ "HJ" then .error .notImplementedError
  else if src.waveform.has_initial_fields = false then .ok .zero
  else if adjoint = true then
    LineCurrent._aInitialDeriv src sim (sim.mesh.edgeCurl v) true
  else do
    let ad ← LineCurrent._aInitialDeriv src sim v false
    pure (fvApp sim.mesh.edgeCurlT ad)

/-- `LineCurrent.hInitial(simulation)`: `MeMuI * bInitial` (HJ only). -/
def LineCurrent.hInitial {n : ℕ} (src : LineCurrent n) (sim : Simulation n) :
    Except PyError (FV n) :=
  if sim.formulation ≠ "HJ" then .error .notImplementedError
  else if src.waveform.has_initial_fields = false then .ok .zero
  else do
    let b ← LineCurrent.bInitial src sim
    pure (fvApp sim.MeMuI b)

/-- `LineCurrent.hInitialDeriv(simulation, v, adjoint)`. -/
def LineCurrent.hInitialDeriv {n : ℕ} (src : LineCurrent n) (sim : Simulation n)
    (v : Vec n) (adjoint : Bool) : Except PyError (FV n) :=
  if sim.formulation ≠ "HJ" then .error .notImplementedError
  else if src.waveform.has_initial_fields = false then .ok .zero
  else if adjoint = true then
    LineCurrent.bInitialDeriv src sim (sim.MeMuIT v) true
  else do
    let bd ← LineCurrent.bInitialDeriv src sim v false
    pure (fvApp sim.MeMuI bd)

/-- The euclidean inner product of two field vectors. -/
def dotV {n : ℕ} (u v : Vec n) : ℚ := ∑ i, u i * v i

/-- Inner product of a vector with a field value (the sentinel contributes
zero). -/
def dotFV {n : ℕ} (u : Vec n) : FV n → ℚ
  | .zero => 0
  | .vec w => dotV u w

/-- Inner product of a vector with the result of a fallible field
computation (only consulted where no exception can occur). -/
def dotE {n : ℕ} (u : Vec n) : Except PyError (FV n) → ℚ
  | .ok f => dotFV u f
  | .error _ => 0

/-- The DC potential computed by `phiInitial` under the HJ formulation
with initial fields: `Adcinv * (sdiag(vol) * faceDiv * Mfjs)`. -/
def phiHJ {n : ℕ} (src : LineCurrent n) (sim : Simulation n) : Vec n :=
  sim.Adcinv (sim.divDC (LineCurrent.Mfjs src sim))

/-- Closed form of `_phiInitialDeriv(v, adjoint=False)` under HJ with
initial fields. -/
def phiDf {n : ℕ} (src : LineCurrent n) (sim : Simulation n) (v : Vec n) : Vec n :=
  -(sim.Adcinv (sim.getAdcDeriv (phiHJ src sim) v false))

/-- Closed form of `_phiInitialDeriv(u, adjoint=True)` under HJ with
initial fields. -/
def phiDa {n : ℕ} (src : LineCurrent n) (sim : Simulation n) (u : Vec n) : Vec n :=
  -(sim.getAdcDeriv (phiHJ src sim) (sim.Adcinv u) true)

/-- Closed form of `jInitialDeriv(v, adjoint=False)` under HJ with initial
fields. -/
def jDf {n : ℕ} (src : LineCurrent n) (sim : Simulation n) (v : Vec n) : Vec n :=
  -(sim.MfRhoIDeriv (sim.divDCT (phiHJ src sim)) v false +
    sim.MfRhoI (sim.divDCT (phiDf src sim v)))

/-- Closed form of `jInitialDeriv(u, adjoint=True)` under HJ with initial
fields. -/
def jDa {n : ℕ} (src : LineCurrent n) (sim : Simulation n) (u : Vec n) : Vec n :=
  -(sim.MfRhoIDeriv (sim.divDCT (phiHJ src sim)) u true +
    phiDa src sim (sim.divDC (sim.MfRhoIT u)))

/-- Closed form of `_aInitialDeriv(v, adjoint=False)` under HJ with initial
fields. -/
def aDf {n : ℕ} (src : LineCurrent n) (sim : Simulation n) (v : Vec n) : Vec n :=
  -(sim.solver (ammrOp sim) (jDf src sim v))

/-- Closed form of `_aInitialDeriv(u, adjoint=True)` under HJ with initial
fields. -/
def aDa {n : ℕ} (src : LineCurrent n) (sim : Simulation n) (u : Vec n) : Vec n :=
  -(jDa src sim (sim.solver (ammrOp sim) u))

/-- Closed form of `bInitialDeriv(v, adjoint=False)` under HJ with initial
fields. -/
def bDf {n : ℕ} (src : LineCurrent n) (sim : Simulation n) (v : Vec n) : Vec n :=
  sim.mesh.edgeCurlT (aDf src sim v)

/-- Closed form of `bInitialDeriv(u, adjoint=True)` under HJ with initial
fields. -/
def bDa {n : ℕ} (src : LineCurrent n) (sim : Simulation n) (u : Vec n) : Vec n :=
  aDa src sim (sim.mesh.edgeCurl u)

/-- Closed form of `hInitialDeriv(v, adjoint=False)` under HJ with initial
fields. -/
def hDf {n : ℕ} (src : LineCurrent n) (sim : Simulation n) (v : Vec n) : Vec n :=
  sim.MeMuI (bDf src sim v)

/-- Closed form of `hInitialDeriv(u, adjoint=True)` under HJ with initial
fields. -/
def hDa {n : ℕ} (src : LineCurrent n) (sim : Simulation n) (u : Vec n) : Vec n :=
  bDa src sim (sim.MeMuIT u)

/-- A one-cell mesh whose operators are all the identity, for concrete
instantiations. -/
def meshId : Mesh 1 :=
  { edgeCurl := id, edgeCurlT := id, faceDiv := id, faceDivT := id,
    nodalGrad := id, nodalGradT := id, vol := fun _ => 1,
    getFaceInnerProduct := fun _ v => v, getFaceInnerProductInv := fun _ v => v }

/-- A waveform with initial fields and unit amplitude. -/
def waveOn : Waveform := { has_initial_fields := true, eval := fun _ => 1 }

/-- A waveform without initial fields. -/
def waveOff : Waveform := { has_initial_fields := false, eval := fun _ => 1 }

/-- A concrete HJ simulation on `meshId` whose collaborator operators are
identities (and whose solver returns the right-hand side unchanged). -/
def simC3 : Simulation 1 :=
  { mesh := meshId, formulation := "HJ", fieldType := "j", time_steps := [0, 10],
    mu := fun _ => 2, mui := fun _ => 1 / 2,
    MfMuiI := id, MeMuI := id, MeMuIT := id, MfRhoI := id, MfRhoIT := id,
    Adcinv := id, getAdcDeriv := fun _ v _ => v, MfRhoIDeriv := fun _ v _ => v,
    solver := fun _ v => v }

/-- A concrete HJ simulation on `meshId` with a non-unit permeability model
(`mu = 2`, `mui = 1/2`) and a solver that genuinely inverts the (scalar,
linear) operator it is given. -/
def simC2 : Simulation 1 :=
  { mesh := meshId, formulation := "HJ", fieldType := "j", time_steps := [0, 10],
    mu := fun _ => 2, mui := fun _ => 1 / 2,
    MfMuiI := id, MeMuI := id, MeMuIT := id, MfRhoI := id, MfRhoIT := id,
    Adcinv := id, getAdcDeriv := fun _ v _ => v, MfRhoIDeriv := fun _ v _ => v,
    solver := fun A v => fun i => v i / A (fun _ => 1) i }

/-- A concrete EB simulation on `meshId`. -/
def simEB : Simulation 1 :=
  { mesh := meshId, formulation := "EB", fieldType := "e", time_steps := [0, 10],
    mu := fun _ => 1, mui := fun _ => 1,
    MfMuiI := id, MeMuI := id, MeMuIT := id, MfRhoI := id, MfRhoIT := id,
    Adcinv := id, getAdcDeriv := fun _ v _ => v, MfRhoIDeriv := fun _ v _ => v,
    solver := fun _ v => v }

/-- A concrete simulation whose formulation string is neither EB nor HJ. -/
def simXY : Simulation 1 :=
  { mesh := meshId, formulation := "XY", fieldType := "e", time_steps := [0, 10],
    mu := fun _ => 1, mui := fun _ => 1,
    MfMuiI := id, MeMuI := id, MeMuIT := id, MfRhoI := id, MfRhoIT := id,
    Adcinv := id, getAdcDeriv := fun _ v _ => v, MfRhoIDeriv := fun _ v _ => v,
    solver := fun _ v => v }

/-- A concrete line-current source with initial fields and unit injection
vectors. -/
def lineOn : LineCurrent 1 :=
  { current := 1, waveform := waveOn, mejsFun := fun _ _ => 1, mfjsFun := fun _ _ => 1 }

/-- A concrete line-current source whose waveform has no initial fields. -/
def lineOff : LineCurrent 1 :=
  { current := 1, waveform := waveOff, mejsFun := fun _ _ => 1, mfjsFun := fun _ _ => 1 }

/-- A concrete magnetic dipole source with initial fields, background
permeability 1, and a constant sampled vector potential. -/
def dipOn : MagDipole 1 :=
  { mu := 1, moment := 1, waveform := waveOn, aSrcFun := fun _ _ => fun _ => 5 }

/-- A concrete magnetic dipole source without initial fields. -/
def dipOff : MagDipole 1 :=
  { mu := 1, moment := 1, waveform := waveOff, aSrcFun := fun _ _ => fun _ => 5 }


/-- A concrete magnetic dipole source with initial fields and background
permeability 2. -/
def dipOn2 : MagDipole 1 :=
  { mu := 2, moment := 1, waveform := waveOn, aSrcFun := fun _ _ => fun _ => 5 }

/-- The simulation `simEB` with every permeability-model-dependent field
replaced (different `mu`, `mui`, and permeability mass matrices), agreeing
with `simEB` on mesh, formulation, field type and time steps. -/
def simEBmu : Simulation 1 :=
  { simEB with
    mu := (fun _ => 3)
    mui := (fun _ => 1 / 3)
    MfMuiI := (fun v => v + v)
    MeMuI := (fun v => v + v)
    MeMuIT := (fun v => v + v) }

theorem dotV_comm {n : ℕ} (u v : Vec n) : dotV u v = dotV v u := by
  unfold dotV
  exact Finset.sum_congr rfl fun i _ => mul_comm _ _

theorem dotV_neg_right {n : ℕ} (u v : Vec n) : dotV u (-v) = -dotV u v := by
  unfold dotV
  rw [← Finset.sum_neg_distrib]
  exact Finset.sum_congr rfl fun i _ => by simp [mul_neg]

theorem dotV_neg_left {n : ℕ} (u v : Vec n) : dotV (-u) v = -dotV u v := by
  rw [dotV_comm, dotV_neg_right, dotV_comm]

theorem dotV_add_right {n : ℕ} (u v w : Vec n) :
    dotV u (v + w) = dotV u v + dotV u w := by
  unfold dotV
  rw [← Finset.sum_add_distrib]
  exact Finset.sum_congr rfl fun i _ => by simp [mul_add]

theorem dotV_add_left {n : ℕ} (u v w : Vec n) :
    dotV (u + v) w = dotV u w + dotV v w := by
  rw [dotV_comm, dotV_add_right, dotV_comm w u, dotV_comm w v]

theorem dotV_sdiag {n : ℕ} (d u v : Vec n) :
    dotV u (sdiag d v) = dotV (sdiag d u) v := by
  unfold dotV sdiag
  exact Finset.sum_congr rfl fun i _ => by ring

theorem getRHSdc_HJ {n : ℕ} (src : LineCurrent n) (sim : Simulation n)
    (hHJ : sim.formulation = "HJ") :
    LineCurrent.getRHSdc src sim = some (sim.divDC (LineCurrent.Mfjs src sim)) := by
  unfold LineCurrent.getRHSdc
  rw [hHJ]
  simp

theorem phiInitial_closed {n : ℕ} (src : LineCurrent n) (sim : Simulation n)
    (hHJ : sim.formulation = "HJ") (hif : src.waveform.has_initial_fields = true) :
    LineCurrent.phiInitial src sim = .ok (.vec (phiHJ src sim)) := by
  unfold LineCurrent.phiInitial
  rw [hif, getRHSdc_HJ src sim hHJ]
  rfl

theorem phiInitialDeriv_false_closed {n : ℕ} (src : LineCurrent n) (sim : Simulation n)
    (hHJ : sim.formulation = "HJ") (hif : src.waveform.has_initial_fields = true)
    (v : Vec n) :
    LineCurrent._phiInitialDeriv src sim v false = .ok (.vec (phiDf src sim v)) := by
  unfold LineCurrent._phiInitialDeriv
  rw [hif, phiInitial_closed src sim hHJ hif]
  rfl

theorem phiInitialDeriv_true_closed {n : ℕ} (src : LineCurrent n) (sim : Simulation n)
    (hHJ : sim.formulation = "HJ") (hif : src.waveform.has_initial_fields = true)
    (u : Vec n) :
    LineCurrent._phiInitialDeriv src sim u true = .ok (.vec (phiDa src sim u)) := by
  unfold LineCurrent._phiInitialDeriv
  rw [hif, phiInitial_closed src sim hHJ hif]
  rfl

theorem jInitialDeriv_false_closed {n : ℕ} (src : LineCurrent n) (sim : Simulation n)
    (hHJ : sim.formulation = "HJ") (hif : src.waveform.has_initial_fields = true)
    (v : Vec n) :
    LineCurrent.jInitialDeriv src sim v false = .ok (.vec (jDf src sim v)) := by
  unfold LineCurrent.jInitialDeriv
  rw [hHJ, hif, phiInitial_closed src sim hHJ hif,
    phiInitialDeriv_false_closed src sim hHJ hif v]
  rfl

theorem jInitialDeriv_true_closed {n : ℕ} (src : LineCurrent n) (sim : Simulation n)
    (hHJ : sim.formulation = "HJ") (hif : src.waveform.has_initial_fields = true)
    (u : Vec n) :
    LineCurrent.jInitialDeriv src sim u true = .ok (.vec (jDa src sim u)) := by
  unfold LineCurrent.jInitialDeriv
  rw [hHJ, hif, phiInitial_closed src sim hHJ hif,
    phiInitialDeriv_true_closed src sim hHJ hif (sim.divDC (sim.MfRhoIT u))]
  rfl

theorem aInitialDeriv_false_closed {n : ℕ} (src : LineCurrent n) (sim : Simulation n)
    (hHJ : sim.formulation = "HJ") (hif : src.waveform.has_initial_fields = true)
    (v : Vec n) :
    LineCurrent._aInitialDeriv src sim v false = .ok (.vec (aDf src sim v)) := by
  unfold LineCurrent._aInitialDeriv LineCurrent._getAmmr
  rw [hHJ]
  simp only [ne_eq]
  rw [if_neg (by simp)]
  show (LineCurrent.jInitialDeriv src sim v false).bind _ = _
  rw [jInitialDeriv_false_closed src sim hHJ hif v]
  rfl

theorem aInitialDeriv_true_closed {n : ℕ} (src : LineCurrent n) (sim : Simulation n)
    (hHJ : sim.formulation = "HJ") (hif : src.waveform.has_initial_fields = true)
    (u : Vec n) :
    LineCurrent._aInitialDeriv src sim u true = .ok (.vec (aDa src sim u)) := by
  unfold LineCurrent._aInitialDeriv LineCurrent._getAmmr
  rw [hHJ]
  simp only [ne_eq]
  rw [if_neg (by simp)]
  show (LineCurrent.jInitialDeriv src sim _ true).bind _ = _
  rw [jInitialDeriv_true_closed src sim hHJ hif (sim.solver (ammrOp sim) u)]
  rfl

theorem bInitialDeriv_false_closed {n : ℕ} (src : LineCurrent n) (sim : Simulation n)
    (hHJ : sim.formulation = "HJ") (hif : src.waveform.has_initial_fields = true)
    (v : Vec n) :
    LineCurrent.bInitialDeriv src sim v false = .ok (.vec (bDf src sim v)) := by
  unfold LineCurrent.bInitialDeriv
  rw [hHJ, hif]
  simp only [ne_eq]
  rw [if_neg (by simp), if_neg (by simp), if_neg (by simp)]
  show (LineCurrent._aInitialDeriv src sim v false).bind _ = _
  rw [aInitialDeriv_false_closed src sim hHJ hif v]
  rfl

theorem bInitialDeriv_true_closed {n : ℕ} (src : LineCurrent n) (sim : Simulation n)
    (hHJ : sim.formulation = "HJ") (hif : src.waveform.has_initial_fields = true)
    (u : Vec n) :
    LineCurrent.bInitialDeriv src sim u true = .ok (.vec (bDa src sim u)) := by
  unfold LineCurrent.bInitialDeriv
  rw [hHJ, hif]
  simp only [ne_eq]
  rw [if_neg (by simp), if_neg (by simp), if_pos trivial]
  rw [aInitialDeriv_true_closed src sim hHJ hif (sim.mesh.edgeCurl u)]
  rfl

theorem hInitialDeriv_false_closed {n : ℕ} (src : LineCurrent n) (sim : Simulation n)
    (hHJ : sim.formulation = "HJ") (hif : src.waveform.has_initial_fields = true)
    (v : Vec n) :
    LineCurrent.hInitialDeriv src sim v false = .ok (.vec (hDf src sim v)) := by
  unfold LineCurrent.hInitialDeriv
  rw [hHJ, hif]
  simp only [ne_eq]
  rw [if_neg (by simp), if_neg (by simp), if_neg (by simp)]
  show (LineCurrent.bInitialDeriv src sim v false).bind _ = _
  rw [bInitialDeriv_false_closed src sim hHJ hif v]
  rfl

theorem hInitialDeriv_true_closed {n : ℕ} (src : LineCurrent n) (sim : Simulation n)
    (hHJ : sim.formulation = "HJ") (hif : src.waveform.has_initial_fields = true)
    (u : Vec n) :
    LineCurrent.hInitialDeriv src sim u true = .ok (.vec (hDa src sim u)) := by
  unfold LineCurrent.hInitialDeriv
  rw [hHJ, hif]
  simp only [ne_eq]
  rw [if_neg (by simp), if_neg (by simp), if_pos trivial]
  rw [bInitialDeriv_true_closed src sim hHJ hif (sim.MeMuIT u)]
  rfl

theorem dot_divDCT {n : ℕ} (sim : Simulation n)
    (hDiv : ∀ u v, dotV (sim.mesh.faceDivT u) v = dotV u (sim.mesh.faceDiv v))
    (a b : Vec n) : dotV a (sim.divDCT b) = dotV (sim.divDC a) b := by
  unfold Simulation.divDCT Simulation.divDC
  rw [dotV_comm, hDiv, dotV_comm, dotV_sdiag]

theorem dot_curlT_right {n : ℕ} (sim : Simulation n)
    (hCurl : ∀ u v, dotV (sim.mesh.edgeCurlT u) v = dotV u (sim.mesh.edgeCurl v))
    (a b : Vec n) : dotV a (sim.mesh.edgeCurlT b) = dotV (sim.mesh.edgeCurl a) b := by
  rw [dotV_comm, hCurl, dotV_comm]

theorem adjPhi {n : ℕ} (src : LineCurrent n) (sim : Simulation n)
    (hAdc : ∀ u v, dotV (sim.Adcinv u) v = dotV u (sim.Adcinv v))
    (hG : ∀ p u v, dotV u (sim.getAdcDeriv p v false) = dotV (sim.getAdcDeriv p u true) v)
    (u v : Vec n) : dotV u (phiDf src sim v) = dotV (phiDa src sim u) v := by
  unfold phiDf phiDa
  rw [dotV_neg_right, dotV_neg_left, ← hAdc u (sim.getAdcDeriv (phiHJ src sim) v false),
    hG (phiHJ src sim) (sim.Adcinv u) v]

theorem adjJ {n : ℕ} (src : LineCurrent n) (sim : Simulation n)
    (hAdc : ∀ u v, dotV (sim.Adcinv u) v = dotV u (sim.Adcinv v))
    (hG : ∀ p u v, dotV u (sim.getAdcDeriv p v false) = dotV (sim.getAdcDeriv p u true) v)
    (hR : ∀ x u v, dotV u (sim.MfRhoIDeriv x v false) = dotV (sim.MfRhoIDeriv x u true) v)
    (hRho : ∀ u v, dotV (sim.MfRhoIT u) v = dotV u (sim.MfRhoI v))
    (hDiv : ∀ u v, dotV (sim.mesh.faceDivT u) v = dotV u (sim.mesh.faceDiv v))
    (u v : Vec n) : dotV u (jDf src sim v) = dotV (jDa src sim u) v := by
  unfold jDf jDa
  rw [dotV_neg_right, dotV_neg_left, dotV_add_right, dotV_add_left,
    hR (sim.divDCT (phiHJ src sim)) u v,
    ← hRho u (sim.divDCT (phiDf src sim v)),
    dot_divDCT sim hDiv (sim.MfRhoIT u) (phiDf src sim v),
    adjPhi src sim hAdc hG (sim.divDC (sim.MfRhoIT u)) v]

theorem adjB {n : ℕ} (src : LineCurrent n) (sim : Simulation n)
    (hAdc : ∀ u v, dotV (sim.Adcinv u) v = dotV u (sim.Adcinv v))
    (hG : ∀ p u v, dotV u (sim.getAdcDeriv p v false) = dotV (sim.getAdcDeriv p u true) v)
    (hR : ∀ x u v, dotV u (sim.MfRhoIDeriv x v false) = dotV (sim.MfRhoIDeriv x u true) v)
    (hRho : ∀ u v, dotV (sim.MfRhoIT u) v = dotV u (sim.MfRhoI v))
    (hDiv : ∀ u v, dotV (sim.mesh.faceDivT u) v = dotV u (sim.mesh.faceDiv v))
    (hCurl : ∀ u v, dotV (sim.mesh.edgeCurlT u) v = dotV u (sim.mesh.edgeCurl v))
    (hAmmr : ∀ u v, dotV (sim.solver (ammrOp sim) u) v = dotV u (sim.solver (ammrOp sim) v))
    (u v : Vec n) : dotV u (bDf src sim v) = dotV (bDa src sim u) v := by
  unfold bDf bDa aDf aDa
  rw [dot_curlT_right sim hCurl u (-(sim.solver (ammrOp sim) (jDf src sim v))),
    dotV_neg_right, dotV_neg_left,
    ← hAmmr (sim.mesh.edgeCurl u) (jDf src sim v),
    dotV_comm (sim.solver (ammrOp sim) (sim.mesh.edgeCurl u)) (jDf src sim v)]
  rw [dotV_comm (jDf src sim v) (sim.solver (ammrOp sim) (sim.mesh.edgeCurl u)),
    adjJ src sim hAdc hG hR hRho hDiv (sim.solver (ammrOp sim) (sim.mesh.edgeCurl u)) v]

theorem adjH {n : ℕ} (src : LineCurrent n) (sim : Simulation n)
    (hAdc : ∀ u v, dotV (sim.Adcinv u) v = dotV u (sim.Adcinv v))
    (hG : ∀ p u v, dotV u (sim.getAdcDeriv p v false) = dotV (sim.getAdcDeriv p u true) v)
    (hR : ∀ x u v, dotV u (sim.MfRhoIDeriv x v false) = dotV (sim.MfRhoIDeriv x u true) v)
    (hRho : ∀ u v, dotV (sim.MfRhoIT u) v = dotV u (sim.MfRhoI v))
    (hDiv : ∀ u v, dotV (sim.mesh.faceDivT u) v = dotV u (sim.mesh.faceDiv v))
    (hCurl : ∀ u v, dotV (sim.mesh.edgeCurlT u) v = dotV u (sim.mesh.edgeCurl v))
    (hAmmr : ∀ u v, dotV (sim.solver (ammrOp sim) u) v = dotV u (sim.solver (ammrOp sim) v))
    (hMe : ∀ u v, dotV (sim.MeMuIT u) v = dotV u (sim.MeMuI v))
    (u v : Vec n) : dotV u (hDf src sim v) = dotV (hDa src sim u) v := by
  unfold hDf hDa
  rw [← hMe u (bDf src sim v),
    adjB src sim hAdc hG hR hRho hDiv hCurl hAmmr (sim.MeMuIT u) v]

theorem phiInitialDeriv_noif {n : ℕ} (src : LineCurrent n) (sim : Simulation n)
    (hif : src.waveform.has_initial_fields = false) (v : Vec n) (b : Bool) :
    LineCurrent._phiInitialDeriv src sim v b = .ok .zero := by
  unfold LineCurrent._phiInitialDeriv
  rw [hif]
  rfl

theorem jInitialDeriv_noif {n : ℕ} (src : LineCurrent n) (sim : Simulation n)
    (hHJ : sim.formulation = "HJ") (hif : src.waveform.has_initial_fields = false)
    (v : Vec n) (b : Bool) :
    LineCurrent.jInitialDeriv src sim v b = .ok .zero := by
  unfold LineCurrent.jInitialDeriv
  rw [hHJ, hif]
  rfl

theorem bInitialDeriv_noif {n : ℕ} (src : LineCurrent n) (sim : Simulation n)
    (hHJ : sim.formulation = "HJ") (hif : src.waveform.has_initial_fields = false)
    (v : Vec n) (b : Bool) :
    LineCurrent.bInitialDeriv src sim v b = .ok .zero := by
  unfold LineCurrent.bInitialDeriv
  rw [hHJ, hif]
  rfl

theorem hInitialDeriv_noif {n : ℕ} (src : LineCurrent n) (sim : Simulation n)
    (hHJ : sim.formulation = "HJ") (hif : src.waveform.has_initial_fields = false)
    (v : Vec n) (b : Bool) :
    LineCurrent.hInitialDeriv src sim v b = .ok .zero := by
  unfold LineCurrent.hInitialDeriv
  rw [hHJ, hif]
  rfl

/-- Claim C3: for every GalvanicSource (LineCurrent) initial-field
derivative map (`_phiInitialDeriv`, `jInitialDeriv`, `bInitialDeriv`,
`hInitialDeriv`), under the hypotheses that the collaborator operators
`Adcinv` and the factored `Ammr` solve are symmetric and that
`getAdcDeriv` and `MfRhoIDeriv` satisfy their own forward/adjoint
transpose contracts (and the mesh operator transpose pairs are genuine
transposes), the `adjoint=True` result is the exact transpose of the
`adjoint=False` linear map: `⟨u, J v⟩ = ⟨J.T u, v⟩` for all vectors
`u`, `v`. -/
theorem claim_C3 {n : ℕ} (src : LineCurrent n) (sim : Simulation n)
    (hHJ : sim.formulation = "HJ")
    (hAdc : ∀ u v, dotV (sim.Adcinv u) v = dotV u (sim.Adcinv v))
    (hG : ∀ p u v, dotV u (sim.getAdcDeriv p v false) = dotV (sim.getAdcDeriv p u true) v)
    (hR : ∀ x u v, dotV u (sim.MfRhoIDeriv x v false) = dotV (sim.MfRhoIDeriv x u true) v)
    (hRho : ∀ u v, dotV (sim.MfRhoIT u) v = dotV u (sim.MfRhoI v))
    (hDiv : ∀ u v, dotV (sim.mesh.faceDivT u) v = dotV u (sim.mesh.faceDiv v))
    (hCurl : ∀ u v, dotV (sim.mesh.edgeCurlT u) v = dotV u (sim.mesh.edgeCurl v))
    (hAmmr : ∀ u v, dotV (sim.solver (ammrOp sim) u) v = dotV u (sim.solver (ammrOp sim) v))
    (hMe : ∀ u v, dotV (sim.MeMuIT u) v = dotV u (sim.MeMuI v)) :
    (∀ u v, dotE u (LineCurrent._phiInitialDeriv src sim v false) =
      dotE v (LineCurrent._phiInitialDeriv src sim u true)) ∧
    (∀ u v, dotE u (LineCurrent.jInitialDeriv src sim v false) =
      dotE v (LineCurrent.jInitialDeriv src sim u true)) ∧
    (∀ u v, dotE u (LineCurrent.bInitialDeriv src sim v false) =
      dotE v (LineCurrent.bInitialDeriv src sim u true)) ∧
    (∀ u v, dotE u (LineCurrent.hInitialDeriv src sim v false) =
      dotE v (LineCurrent.hInitialDeriv src sim u true)) := by
  cases hif : src.waveform.has_initial_fields with
  | false =>
    refine ⟨fun u v => ?_, fun u v => ?_, fun u v => ?_, fun u v => ?_⟩
    · rw [phiInitialDeriv_noif src sim hif v false, phiInitialDeriv_noif src sim hif u true]
      rfl
    · rw [jInitialDeriv_noif src sim hHJ hif v false, jInitialDeriv_noif src sim hHJ hif u true]
      rfl
    · rw [bInitialDeriv_noif src sim hHJ hif v false, bInitialDeriv_noif src sim hHJ hif u true]
      rfl
    · rw [hInitialDeriv_noif src sim hHJ hif v false, hInitialDeriv_noif src sim hHJ hif u true]
      rfl
  | true =>
    refine ⟨fun u v => ?_, fun u v => ?_, fun u v => ?_, fun u v => ?_⟩
    · rw [phiInitialDeriv_false_closed src sim hHJ hif v,
        phiInitialDeriv_true_closed src sim hHJ hif u]
      show dotV u (phiDf src sim v) = dotV v (phiDa src sim u)
      rw [adjPhi src sim hAdc hG u v]
      exact dotV_comm _ _
    · rw [jInitialDeriv_false_closed src sim hHJ hif v,
        jInitialDeriv_true_closed src sim hHJ hif u]
      show dotV u (jDf src sim v) = dotV v (jDa src sim u)
      rw [adjJ src sim hAdc hG hR hRho hDiv u v]
      exact dotV_comm _ _
    · rw [bInitialDeriv_false_closed src sim hHJ hif v,
        bInitialDeriv_true_closed src sim hHJ hif u]
      show dotV u (bDf src sim v) = dotV v (bDa src sim u)
      rw [adjB src sim hAdc hG hR hRho hDiv hCurl hAmmr u v]
      exact dotV_comm _ _
    · rw [hInitialDeriv_false_closed src sim hHJ hif v,
        hInitialDeriv_true_closed src sim hHJ hif u]
      show dotV u (hDf src sim v) = dotV v (hDa src sim u)
      rw [adjH src sim hAdc hG hR hRho hDiv hCurl hAmmr hMe u v]
      exact dotV_comm _ _

/-- Witness for C3: the adjoint identity evaluated at the concrete source
`lineOn`, simulation `simC3`, and vectors `u = 3`, `v = 5`. -/
theorem claim_C3_witness :
    simC3.formulation = "HJ" ∧
    dotE (fun _ => (3 : ℚ)) (LineCurrent._phiInitialDeriv lineOn simC3 (fun _ => 5) false) =
      dotE (fun _ => (5 : ℚ)) (LineCurrent._phiInitialDeriv lineOn simC3 (fun _ => 3) true) ∧
    dotE (fun _ => (3 : ℚ)) (LineCurrent.jInitialDeriv lineOn simC3 (fun _ => 5) false) =
      dotE (fun _ => (5 : ℚ)) (LineCurrent.jInitialDeriv lineOn simC3 (fun _ => 3) true) ∧
    dotE (fun _ => (3 : ℚ)) (LineCurrent.bInitialDeriv lineOn simC3 (fun _ => 5) false) =
      dotE (fun _ => (5 : ℚ)) (LineCurrent.bInitialDeriv lineOn simC3 (fun _ => 3) true) ∧
    dotE (fun _ => (3 : ℚ)) (LineCurrent.hInitialDeriv lineOn simC3 (fun _ => 5) false) =
      dotE (fun _ => (5 : ℚ)) (LineCurrent.hInitialDeriv lineOn simC3 (fun _ => 3) true) := by
  have h := claim_C3 lineOn simC3 rfl (fun u v => rfl) (fun p u v => rfl)
    (fun x u v => rfl) (fun u v => rfl) (fun u v => rfl) (fun u v => rfl)
    (fun u v => rfl) (fun u v => rfl)
  exact ⟨rfl, h.1 _ _, h.2.1 _ _, h.2.2.1 _ _, h.2.2.2 _ _⟩

theorem sE_HJ_closed {n : ℕ} (src : LineCurrent n) (sim : Simulation n)
    (hHJ : sim.formulation = "HJ") (t : ℚ) :
    LineCurrent.s_e src sim t =
      some (.vec fun i => LineCurrent.Mfjs src sim i * src.waveform.eval t) := by
  unfold LineCurrent.s_e
  rw [hHJ]
  simp

theorem jInitial_closed {n : ℕ} (src : LineCurrent n) (sim : Simulation n)
    (hHJ : sim.formulation = "HJ") (hif : src.waveform.has_initial_fields = true) :
    LineCurrent.jInitial src sim =
      .ok (.vec (-(sim.MfRhoI (sim.divDCT (phiHJ src sim))))) := by
  unfold LineCurrent.jInitial
  rw [hif, hHJ, phiInitial_closed src sim hHJ hif]
  rfl

theorem aInitial_closed {n : ℕ} (src : LineCurrent n) (sim : Simulation n)
    (hHJ : sim.formulation = "HJ") (hif : src.waveform.has_initial_fields = true) :
    LineCurrent._aInitial src sim =
      .ok (sim.solver (ammrOp sim) (toVec (fvSub
        (.vec fun i => LineCurrent.Mfjs src sim i * src.waveform.eval 0)
        (.vec (-(sim.MfRhoI (sim.divDCT (phiHJ src sim)))))))) := by
  unfold LineCurrent._aInitial LineCurrent._getAmmr
  rw [hHJ]
  simp only [ne_eq]
  rw [if_neg (by simp)]
  show (LineCurrent.jInitial src sim).bind _ = _
  rw [jInitial_closed src sim hHJ hif]
  show (match LineCurrent.s_e src sim 0 with
    | some sev => _
    | none => _ : Except PyError (Vec n)) = _
  rw [sE_HJ_closed src sim hHJ 0]
  rfl

theorem bInitial_closed {n : ℕ} (src : LineCurrent n) (sim : Simulation n)
    (hHJ : sim.formulation = "HJ") (hif : src.waveform.has_initial_fields = true) :
    LineCurrent.bInitial src sim =
      .ok (.vec (sim.mesh.edgeCurlT (sim.solver (ammrOp sim) (toVec (fvSub
        (.vec fun i => LineCurrent.Mfjs src sim i * src.waveform.eval 0)
        (.vec (-(sim.MfRhoI (sim.divDCT (phiHJ src sim)))))))))) := by
  unfold LineCurrent.bInitial
  rw [hHJ, hif]
  simp only [ne_eq]
  rw [if_neg (by simp), if_neg (by simp)]
  show (LineCurrent._aInitial src sim).bind _ = _
  rw [aInitial_closed src sim hHJ hif]
  rfl

/-- Claim C2 (amended): for every LineCurrent source whose waveform has
initial fields, under the HJ formulation `bInitial` equals
`edgeCurl.T * a` where `a` is the solver applied to the operator
`Ammr = edgeCurl * MeMuI * edgeCurl.T - faceDiv.T * sdiag(1/vol * mui) * faceDiv`
with right-hand side `s_e(time=0) - jInitial`; the stabilization
coefficient is one over cell volume times the INVERSE permeability model
`mui`, not the permeability `mu` as the claim stated. -/
theorem claim_C2_amended {n : ℕ} (src : LineCurrent n) (sim : Simulation n)
    (hif : src.waveform.has_initial_fields = true) (hHJ : sim.formulation = "HJ") :
    LineCurrent._getAmmr src sim = .ok (ammrOp sim) ∧
    ∃ se j, LineCurrent.s_e src sim 0 = some se ∧
      LineCurrent.jInitial src sim = .ok j ∧
      LineCurrent.bInitial src sim =
        .ok (.vec (sim.mesh.edgeCurlT (sim.solver (ammrOp sim) (toVec (fvSub se j))))) := by
  refine ⟨?_, .vec fun i => LineCurrent.Mfjs src sim i * src.waveform.eval 0,
    .vec (-(sim.MfRhoI (sim.divDCT (phiHJ src sim)))),
    sE_HJ_closed src sim hHJ 0, jInitial_closed src sim hHJ hif, ?_⟩
  · unfold LineCurrent._getAmmr
    rw [hHJ]
    simp
  · exact bInitial_closed src sim hHJ hif

/-- Claim C2 counterexample: at the concrete source `lineOn` and HJ
simulation `simC2` (permeability model `mu = 2`, inverse `mui = 1/2`,
identity mesh operators, exact scalar solver), the code returns
`bInitial = 4`, while solving with the operator the claim describes —
stabilization scaled by `(1/vol) * mu` instead of `(1/vol) * mui` — on the
same right-hand side `s_e(0) - jInitial = 1 - (-1) = 2` gives `-2`: the
claim's characterization of `Ammr` is false. -/
theorem claim_C2_cex :
    lineOn.waveform.has_initial_fields = true ∧
    simC2.formulation = "HJ" ∧
    LineCurrent.s_e lineOn simC2 0 = some (.vec fun _ => 1) ∧
    LineCurrent.jInitial lineOn simC2 = .ok (.vec fun _ => -1) ∧
    LineCurrent.bInitial lineOn simC2 = .ok (.vec fun _ => 4) ∧
    simC2.mesh.edgeCurlT (simC2.solver (ammrSpecClaimed simC2)
      (toVec (fvSub (.vec fun _ => 1) (.vec fun _ => -1)))) = (fun _ => -2) ∧
    LineCurrent.bInitial lineOn simC2 ≠
      .ok (.vec (simC2.mesh.edgeCurlT (simC2.solver (ammrSpecClaimed simC2)
        (toVec (fvSub (.vec fun _ => 1) (.vec fun _ => -1)))))) := by
  have hse : LineCurrent.s_e lineOn simC2 0 = some (.vec fun _ => 1) := by
    rw [sE_HJ_closed lineOn simC2 rfl 0]
    refine congrArg _ (congrArg _ (funext fun i => ?_))
    simp [LineCurrent.Mfjs, lineOn, waveOn]
  have hj : LineCurrent.jInitial lineOn simC2 = .ok (.vec fun _ => -1) := by
    rw [jInitial_closed lineOn simC2 rfl rfl]
    refine congrArg _ (congrArg _ (funext fun i => ?_))
    simp [simC2, meshId, phiHJ, Simulation.divDC, Simulation.divDCT, sdiag,
      LineCurrent.Mfjs, lineOn, waveOn]
  have hb : LineCurrent.bInitial lineOn simC2 = .ok (.vec fun _ => 4) := by
    rw [bInitial_closed lineOn simC2 rfl rfl]
    refine congrArg _ (congrArg _ (funext fun i => ?_))
    simp [simC2, meshId, ammrOp, toVec, fvSub, phiHJ, Simulation.divDC,
      Simulation.divDCT, sdiag, LineCurrent.Mfjs, lineOn, waveOn]
    norm_num
  have hclaimed : simC2.mesh.edgeCurlT (simC2.solver (ammrSpecClaimed simC2)
      (toVec (fvSub (.vec fun _ => 1) (.vec fun _ => -1)))) = (fun _ => -2) := by
    funext i
    simp [simC2, meshId, ammrSpecClaimed, toVec, fvSub, sdiag]
    norm_num
  refine ⟨rfl, rfl, hse, hj, hb, hclaimed, ?_⟩
  rw [hb, hclaimed]
  intro h
  have h4 : (fun _ => (4 : ℚ) : Vec 1) = (fun _ => -2) := by
    have := Except.ok.inj h
    exact FV.vec.inj this
  have := congrFun h4 0
  norm_num at this

/-- Witness for the amended C2: the closed form evaluated at the concrete
source `lineOn` and simulation `simC2`. -/
theorem claim_C2_witness :
    lineOn.waveform.has_initial_fields = true ∧
    simC2.formulation = "HJ" ∧
    (LineCurrent._getAmmr lineOn simC2 = .ok (ammrOp simC2) ∧
      ∃ se j, LineCurrent.s_e lineOn simC2 0 = some se ∧
        LineCurrent.jInitial lineOn simC2 = .ok j ∧
        LineCurrent.bInitial lineOn simC2 =
          .ok (.vec (simC2.mesh.edgeCurlT
            (simC2.solver (ammrOp simC2) (toVec (fvSub se j)))))) :=
  ⟨rfl, rfl, claim_C2_amended lineOn simC2 rfl rfl⟩

/-- Claim C1: for every MagDipole (or CircularLoop) source, `bInitial`
returns the zero sentinel when the waveform has no initial fields; when it
has initial fields and the simulation permeability model equals the
source's constant `mu` everywhere, it returns exactly the source b-field
(`edgeCurl * aSrc` under EB, `edgeCurl.T * aSrc` under HJ); when the
permeability model varies, under EB it returns
`MfMuiI * (hp + faceDiv.T * phi)` for the magnetostatic correction
solution `phi`, and under HJ it raises `NotImplementedError`. -/
theorem claim_C1 {n : ℕ} (src : MagDipole n) (sim : Simulation n) :
    (src.waveform.has_initial_fields = false →
      MagDipole.bInitial src sim = .ok .zero) ∧
    (src.waveform.has_initial_fields = true → (∀ i, sim.mu i = src.mu) →
      sim.formulation = "EB" →
      MagDipole.bInitial src sim =
        .ok (.vec (sim.mesh.edgeCurl (MagDipole._aSrc src sim)))) ∧
    (src.waveform.has_initial_fields = true → (∀ i, sim.mu i = src.mu) →
      sim.formulation = "HJ" →
      MagDipole.bInitial src sim =
        .ok (.vec (sim.mesh.edgeCurlT (MagDipole._aSrc src sim)))) ∧
    (src.waveform.has_initial_fields = true → ¬(∀ i, sim.mu i = src.mu) →
      sim.formulation = "EB" → ∀ phi, MagDipole._phiSrc src sim = .ok phi →
      MagDipole.bInitial src sim =
        .ok (.vec (sim.MfMuiI (MagDipole._hp src sim + sim.mesh.faceDivT phi)))) ∧
    (src.waveform.has_initial_fields = true → ¬(∀ i, sim.mu i = src.mu) →
      sim.formulation = "HJ" →
      MagDipole.bInitial src sim = .error .notImplementedError) := by
  refine ⟨fun hif => ?_, fun hif hall hEB => ?_, fun hif hall hHJ => ?_,
    fun hif hnall hEB phi hphi => ?_, fun hif hnall hHJ => ?_⟩
  · unfold MagDipole.bInitial
    rw [hif]
    rfl
  · unfold MagDipole.bInitial MagDipole._bSrc
    rw [hif, if_neg (by simp), if_pos hall, hEB]
    rfl
  · unfold MagDipole.bInitial MagDipole._bSrc
    rw [hif, if_neg (by simp), if_pos hall, hHJ]
    rfl
  · unfold MagDipole.bInitial
    rw [hif, if_neg (by simp), if_neg hnall, if_pos hEB]
    show (MagDipole._phiSrc src sim).bind _ = _
    rw [hphi]
    rfl
  · unfold MagDipole.bInitial
    rw [hif, if_neg (by simp), if_neg hnall, if_neg (by simp [hHJ])]

/-- Witness for C1: all five branches evaluated on concrete dipoles and
simulations (identity operators, one cell). -/
theorem claim_C1_witness :
    (dipOff.waveform.has_initial_fields = false ∧
      MagDipole.bInitial dipOff simEB = .ok .zero) ∧
    (dipOn.waveform.has_initial_fields = true ∧ simEB.formulation = "EB" ∧
      MagDipole.bInitial dipOn simEB =
        .ok (.vec (simEB.mesh.edgeCurl (MagDipole._aSrc dipOn simEB)))) ∧
    (simC3.formulation = "HJ" ∧
      MagDipole.bInitial dipOn2 simC3 =
        .ok (.vec (simC3.mesh.edgeCurlT (MagDipole._aSrc dipOn2 simC3)))) ∧
    (∃ phi, MagDipole._phiSrc dipOn2 simEB = .ok phi ∧
      MagDipole.bInitial dipOn2 simEB =
        .ok (.vec (simEB.MfMuiI (MagDipole._hp dipOn2 simEB + simEB.mesh.faceDivT phi)))) ∧
    MagDipole.bInitial dipOn simC3 = .error .notImplementedError := by
  have hn1 : ¬(∀ i : Fin 1, simEB.mu i = dipOn2.mu) := by
    intro h
    have := h 0
    norm_num [simEB, dipOn2] at this
  have hn2 : ¬(∀ i : Fin 1, simC3.mu i = dipOn.mu) := by
    intro h
    have := h 0
    norm_num [simC3, dipOn] at this
  refine ⟨⟨rfl, (claim_C1 dipOff simEB).1 rfl⟩,
    ⟨rfl, rfl, (claim_C1 dipOn simEB).2.1 rfl (fun i => rfl) rfl⟩,
    ⟨rfl, (claim_C1 dipOn2 simC3).2.2.1 rfl (fun i => rfl) rfl⟩,
    ⟨_, rfl, (claim_C1 dipOn2 simEB).2.2.2.1 rfl hn1 rfl _ rfl⟩,
    (claim_C1 dipOn simC3).2.2.2.2 rfl hn2 rfl⟩

/-- Claim C4 counterexample: a LineCurrent whose waveform has no initial
fields, queried under the EB formulation: `bInitial` checks the
formulation before the waveform and raises `NotImplementedError` instead
of returning the zero sentinel. -/
theorem claim_C4_cex :
    lineOff.waveform.has_initial_fields = false ∧
    simEB.formulation = "EB" ∧
    LineCurrent.bInitial lineOff simEB = .error .notImplementedError ∧
    LineCurrent.bInitial lineOff simEB ≠ .ok .zero :=
  ⟨rfl, rfl, rfl, fun h => Except.noConfusion
    (show Except.error PyError.notImplementedError =
      (Except.ok FV.zero : Except PyError (FV 1)) from h)⟩

/-- Claim C4 (amended): for every LineCurrent whose waveform has
`has_initial_fields = False`, the queries `phiInitial`, `eInitial` and
`jInitial` return the zero sentinel for every formulation, and `bInitial`
returns the zero sentinel under HJ but raises `NotImplementedError` under
any other formulation (its formulation guard precedes the waveform
check); none of the four results depends on the solver factory or the
`Adcinv` operator (so no linear solve is consulted). -/
theorem claim_C4_amended {n : ℕ} (src : LineCurrent n) (sim : Simulation n)
    (hif : src.waveform.has_initial_fields = false) :
    LineCurrent.phiInitial src sim = .ok .zero ∧
    LineCurrent.eInitial src sim = .ok .zero ∧
    LineCurrent.jInitial src sim = .ok .zero ∧
    (sim.formulation = "HJ" → LineCurrent.bInitial src sim = .ok .zero) ∧
    (sim.formulation ≠ "HJ" →
      LineCurrent.bInitial src sim = .error .notImplementedError) ∧
    (∀ sol adc,
      LineCurrent.phiInitial src { sim with solver := sol, Adcinv := adc } =
        LineCurrent.phiInitial src sim ∧
      LineCurrent.eInitial src { sim with solver := sol, Adcinv := adc } =
        LineCurrent.eInitial src sim ∧
      LineCurrent.jInitial src { sim with solver := sol, Adcinv := adc } =
        LineCurrent.jInitial src sim ∧
      LineCurrent.bInitial src { sim with solver := sol, Adcinv := adc } =
        LineCurrent.bInitial src sim) := by
  have hphi : LineCurrent.phiInitial src sim = .ok .zero := by
    unfold LineCurrent.phiInitial
    rw [hif]
    rfl
  have he : LineCurrent.eInitial src sim = .ok .zero := by
    unfold LineCurrent.eInitial
    rw [hif]
    rfl
  have hj : LineCurrent.jInitial src sim = .ok .zero := by
    unfold LineCurrent.jInitial
    rw [hif]
    rfl
  refine ⟨hphi, he, hj, fun hF => ?_, fun hF => ?_, fun sol adc => ?_⟩
  · unfold LineCurrent.bInitial
    rw [hF, hif]
    rfl
  · unfold LineCurrent.bInitial
    rw [if_pos hF]
  · refine ⟨?_, ?_, ?_, ?_⟩
    · unfold LineCurrent.phiInitial
      rw [hif]
      rfl
    · unfold LineCurrent.eInitial
      rw [hif]
      rfl
    · unfold LineCurrent.jInitial
      rw [hif]
      rfl
    · unfold LineCurrent.bInitial
      by_cases hF : sim.formulation = "HJ"
      · rw [show ({ sim with solver := sol, Adcinv := adc } : Simulation n).formulation =
            sim.formulation from rfl, hF, hif]
        rfl
      · rw [if_pos hF, if_pos hF]

/-- Witness for the amended C4: evaluated at the concrete no-initial-field
source `lineOff` against the HJ simulation `simC3` and the EB simulation
`simEB`. -/
theorem claim_C4_witness :
    lineOff.waveform.has_initial_fields = false ∧
    LineCurrent.phiInitial lineOff simC3 = .ok .zero ∧
    LineCurrent.eInitial lineOff simC3 = .ok .zero ∧
    LineCurrent.jInitial lineOff simC3 = .ok .zero ∧
    LineCurrent.bInitial lineOff simC3 = .ok .zero ∧
    LineCurrent.bInitial lineOff simEB = .error .notImplementedError ∧
    LineCurrent.phiInitial lineOff
        { simC3 with solver := fun _ v => v, Adcinv := fun v => v + v } =
      LineCurrent.phiInitial lineOff simC3 := by
  have h1 := claim_C4_amended lineOff simC3 rfl
  have h2 := claim_C4_amended lineOff simEB rfl
  exact ⟨rfl, h1.1, h1.2.1, h1.2.2.1, h1.2.2.2.1 rfl,
    h2.2.2.2.2.1 (by simp [simEB]), (h1.2.2.2.2.2 (fun _ v => v) (fun v => v + v)).1⟩

/-- Claim C9: two-run independence of the MagDipole injection from the
model permeability.  For two simulations that agree on mesh, formulation,
field type and time steps but may differ in their permeability model
(`mu`, `mui`, and the permeability mass matrices), `MagDipole.s_e` returns
the same value at every time: the injection mass matrix is built from the
source's own constant `mu` via `getFaceInnerProduct(1/self.mu)` (or the
`1/self.mu` scaling under HJ), never from the simulation's model. -/
theorem claim_C9 {n : ℕ} (src : MagDipole n) (s1 s2 : Simulation n) (t : ℚ)
    (hm : s1.mesh = s2.mesh) (hf : s1.formulation = s2.formulation)
    (hft : s1.fieldType = s2.fieldType) (hts : s1.time_steps = s2.time_steps) :
    MagDipole.s_e src s1 t = MagDipole.s_e src s2 t := by
  unfold MagDipole.s_e MagDipole._bSrc MagDipole._aSrc
  rw [hm, hf, hft, hts]

/-- Witness for C9: `simEB` and `simEBmu` differ exactly in the
permeability model and its mass matrices, and the injection agrees. -/
theorem claim_C9_witness :
    simEB.mesh = simEBmu.mesh ∧ simEB.formulation = simEBmu.formulation ∧
    simEB.fieldType = simEBmu.fieldType ∧ simEB.time_steps = simEBmu.time_steps ∧
    (∀ i, simEB.mu i ≠ simEBmu.mu i) ∧
    MagDipole.s_e dipOn simEB 1 = MagDipole.s_e dipOn simEBmu 1 :=
  ⟨rfl, rfl, rfl, rfl, fun i => by norm_num [simEB, simEBmu],
    claim_C9 dipOn simEB simEBmu 1 rfl rfl rfl rfl⟩

/-- Claim C10: for any simulation whose formulation is neither EB nor HJ,
`LineCurrent.s_e` and `LineCurrent.getRHSdc` return Python `None` (no
value) rather than raising: their formulation dispatch has no error
branch. -/
theorem claim_C10 {n : ℕ} (src : LineCurrent n) (sim : Simulation n) (t : ℚ)
    (h1 : sim.formulation ≠ "EB") (h2 : sim.formulation ≠ "HJ") :
    LineCurrent.s_e src sim t = none ∧ LineCurrent.getRHSdc src sim = none := by
  constructor
  · unfold LineCurrent.s_e
    rw [if_neg h1, if_neg h2]
  · unfold LineCurrent.getRHSdc
    rw [if_neg h1, if_neg h2]

/-- Witness for C10: the formulation string of `simXY` is neither EB nor
HJ and both queries return `none`. -/
theorem claim_C10_witness :
    simXY.formulation ≠ "EB" ∧ simXY.formulation ≠ "HJ" ∧
    LineCurrent.s_e lineOn simXY 1 = none ∧
    LineCurrent.getRHSdc lineOn simXY = none := by
  have h1 : simXY.formulation ≠ "EB" := by simp [simXY]
  have h2 : simXY.formulation ≠ "HJ" := by simp [simXY]
  have h := claim_C10 lineOn simXY 1 h1 h2
  exact ⟨h1, h2, h.1, h.2⟩

/-- Claim C7: for every StepOffWaveform with `epsilon > 0`: `eval(0) = 1`,
`eval(t) = 1` whenever `|t| < epsilon`, `eval(t) = 0` whenever
`|t| > epsilon`, and `has_initial_fields` is true. -/
theorem claim_C7 (w : StepOffWaveform) (h : 0 < w.epsilon) :
    StepOffWaveform.eval w 0 = 1 ∧
    (∀ t : ℚ, |t| < w.epsilon → StepOffWaveform.eval w t = 1) ∧
    (∀ t : ℚ, w.epsilon < |t| → StepOffWaveform.eval w t = 0) ∧
    StepOffWaveform.has_initial_fields w = true := by
  refine ⟨?_, fun t ht => ?_, fun t ht => ?_, rfl⟩
  · unfold StepOffWaveform.eval
    rw [if_pos]
    simpa using h
  · unfold StepOffWaveform.eval
    rw [if_pos]
    simpa using ht
  · unfold StepOffWaveform.eval
    rw [if_neg]
    rw [sub_zero, not_lt]
    exact le_of_lt ht

/-- Witness for C7: the step-off waveform with `epsilon = 1` evaluated at
0, 1/2 and 2. -/
theorem claim_C7_witness :
    0 < (StepOffWaveform.mk 0 1).epsilon ∧
    StepOffWaveform.eval (StepOffWaveform.mk 0 1) 0 = 1 ∧
    StepOffWaveform.eval (StepOffWaveform.mk 0 1) (1 / 2) = 1 ∧
    StepOffWaveform.eval (StepOffWaveform.mk 0 1) 2 = 0 ∧
    StepOffWaveform.has_initial_fields (StepOffWaveform.mk 0 1) = true := by
  have h := claim_C7 (StepOffWaveform.mk 0 1) (by norm_num)
  exact ⟨by norm_num, h.1, h.2.1 (1 / 2) (by rw [abs_of_pos] <;> norm_num), h.2.2.1 2 (by rw [abs_of_pos] <;> norm_num), h.2.2.2⟩

theorem trap_before (a b c d t : ℝ) (ht : t < a) :
    TrapezoidWaveform.eval ⟨(a, b), (c, d)⟩ t = 0 := by
  unfold TrapezoidWaveform.eval
  rw [if_pos ht]

theorem trap_after (a b c d t : ℝ) (h1 : a < b) (h2 : b ≤ c) (h3 : c < d)
    (ht : d < t) : TrapezoidWaveform.eval ⟨(a, b), (c, d)⟩ t = 0 := by
  unfold TrapezoidWaveform.eval
  rw [if_neg (by dsimp only; linarith), if_neg (by dsimp only; rintro ⟨-, h⟩; linarith),
    if_neg (by dsimp only; rintro ⟨-, h⟩; linarith),
    if_neg (by dsimp only; rintro ⟨-, h⟩; linarith)]

theorem trap_plateau (a b c d t : ℝ) (h1 : a < b) (hbt : b < t) (htc : t < c) :
    TrapezoidWaveform.eval ⟨(a, b), (c, d)⟩ t = 1 := by
  unfold TrapezoidWaveform.eval
  rw [if_neg (by dsimp only; linarith), if_neg (by dsimp only; rintro ⟨-, h⟩; linarith),
    if_pos ⟨hbt, htc⟩]

theorem trap_on_end (a b c d : ℝ) (h1 : a < b) :
    TrapezoidWaveform.eval ⟨(a, b), (c, d)⟩ b = 1 := by
  unfold TrapezoidWaveform.eval
  rw [if_neg (by dsimp only; linarith), if_pos ⟨le_of_lt h1, le_refl b⟩, one_div,
    inv_mul_cancel₀ (sub_ne_zero.mpr (ne_of_gt h1))]

theorem trap_off_start (a b c d : ℝ) (h1 : a < b) (h2 : b ≤ c) (h3 : c < d) :
    TrapezoidWaveform.eval ⟨(a, b), (c, d)⟩ c = 1 := by
  rcases eq_or_lt_of_le h2 with hbc | hbc
  · rw [← hbc]
    exact trap_on_end a b b d h1
  · unfold TrapezoidWaveform.eval
    rw [if_neg (by dsimp only; linarith), if_neg (by dsimp only; rintro ⟨-, h⟩; linarith),
      if_neg (by dsimp only; rintro ⟨-, h⟩; exact lt_irrefl _ h),
      if_pos ⟨le_refl c, le_of_lt h3⟩]
    dsimp only
    rw [sub_self, mul_zero, sub_zero]

theorem qsine_before (a b c d t : ℝ) (ht : t < a) :
    QuarterSineRampOnWaveform.eval ⟨(a, b), (c, d)⟩ t = 0 := by
  unfold QuarterSineRampOnWaveform.eval
  rw [if_pos ht]

theorem qsine_after (a b c d t : ℝ) (h1 : a < b) (h2 : b ≤ c) (h3 : c < d)
    (ht : d < t) : QuarterSineRampOnWaveform.eval ⟨(a, b), (c, d)⟩ t = 0 := by
  unfold QuarterSineRampOnWaveform.eval
  rw [if_neg (by dsimp only; linarith), if_neg (by dsimp only; rintro ⟨-, h⟩; linarith),
    if_neg (by dsimp only; rintro ⟨-, h⟩; linarith),
    if_neg (by dsimp only; rintro ⟨-, h⟩; linarith)]

theorem qsine_plateau (a b c d t : ℝ) (h1 : a < b) (hbt : b < t) (htc : t < c) :
    QuarterSineRampOnWaveform.eval ⟨(a, b), (c, d)⟩ t = 1 := by
  unfold QuarterSineRampOnWaveform.eval
  rw [if_neg (by dsimp only; linarith), if_neg (by dsimp only; rintro ⟨-, h⟩; linarith),
    if_pos ⟨hbt, htc⟩]

theorem qsine_on_end (a b c d : ℝ) (h1 : a < b) :
    QuarterSineRampOnWaveform.eval ⟨(a, b), (c, d)⟩ b = 1 := by
  unfold QuarterSineRampOnWaveform.eval
  rw [if_neg (by dsimp only; linarith), if_pos ⟨le_of_lt h1, le_refl b⟩]
  dsimp only
  rw [one_div, mul_assoc, inv_mul_cancel₀ (sub_ne_zero.mpr (ne_of_gt h1)), mul_one,
    Real.sin_pi_div_two]

theorem qsine_off_start (a b c d : ℝ) (h1 : a < b) (h2 : b ≤ c) (h3 : c < d) :
    QuarterSineRampOnWaveform.eval ⟨(a, b), (c, d)⟩ c = 1 := by
  rcases eq_or_lt_of_le h2 with hbc | hbc
  · rw [← hbc]
    exact qsine_on_end a b b d h1
  · unfold QuarterSineRampOnWaveform.eval
    rw [if_neg (by dsimp only; linarith), if_neg (by dsimp only; rintro ⟨-, h⟩; linarith),
      if_neg (by dsimp only; rintro ⟨-, h⟩; exact lt_irrefl _ h),
      if_pos ⟨le_refl c, le_of_lt h3⟩]
    dsimp only
    rw [sub_self, mul_zero, sub_zero]

theorem hsine_before (a b c d t : ℝ) (ht : t < a) :
    HalfSineWaveform.eval ⟨(a, b), (c, d)⟩ t = 0 := by
  unfold HalfSineWaveform.eval
  rw [if_pos ht]

theorem hsine_after (a b c d t : ℝ) (h1 : a < b) (h2 : b ≤ c) (h3 : c < d)
    (ht : d < t) : HalfSineWaveform.eval ⟨(a, b), (c, d)⟩ t = 0 := by
  unfold HalfSineWaveform.eval
  rw [if_neg (by dsimp only; linarith), if_neg (by dsimp only; rintro ⟨-, h⟩; linarith),
    if_neg (by dsimp only; rintro ⟨-, h⟩; linarith),
    if_neg (by dsimp only; rintro ⟨-, h⟩; linarith)]

theorem hsine_plateau (a b c d t : ℝ) (h1 : a < b) (hbt : b < t) (htc : t < c) :
    HalfSineWaveform.eval ⟨(a, b), (c, d)⟩ t = 1 := by
  unfold HalfSineWaveform.eval
  rw [if_neg (by dsimp only; linarith), if_neg (by dsimp only; rintro ⟨-, h⟩; linarith),
    if_pos ⟨hbt, htc⟩]

theorem hsine_on_end (a b c d : ℝ) (h1 : a < b) :
    HalfSineWaveform.eval ⟨(a, b), (c, d)⟩ b = 1 := by
  unfold HalfSineWaveform.eval
  rw [if_neg (by dsimp only; linarith), if_pos ⟨le_of_lt h1, le_refl b⟩]
  dsimp only
  rw [div_self (sub_ne_zero.mpr (ne_of_gt h1)), mul_one, Real.sin_pi_div_two]

theorem hsine_off_start (a b c d : ℝ) (h1 : a < b) (h2 : b ≤ c) (h3 : c < d) :
    HalfSineWaveform.eval ⟨(a, b), (c, d)⟩ c = 1 := by
  rcases eq_or_lt_of_le h2 with hbc | hbc
  · rw [← hbc]
    exact hsine_on_end a b b d h1
  · unfold HalfSineWaveform.eval
    rw [if_neg (by dsimp only; linarith), if_neg (by dsimp only; rintro ⟨-, h⟩; linarith),
      if_neg (by dsimp only; rintro ⟨-, h⟩; exact lt_irrefl _ h),
      if_pos ⟨le_refl c, le_of_lt h3⟩]
    dsimp only
    rw [sub_self, zero_div, mul_zero, Real.cos_zero]

/-- Claim C8: for every TrapezoidWaveform, TriangularWaveform,
QuarterSineRampOnWaveform and HalfSineWaveform with
`ramp_on.1 < ramp_on.2 ≤ ramp_off.1 < ramp_off.2`, `eval` is continuous at
both interval boundaries — the ramp-on expression and the plateau both
give exactly 1 at `time = ramp_on.2`, and the plateau and the ramp-off
expression both give exactly 1 at `time = ramp_off.1` — and `eval` is 0
strictly before `ramp_on.1` and strictly after `ramp_off.2`.  (The
triangular waveform has `ramp_on = (0, peak)`, `ramp_off = (peak, off)`
and inherits the trapezoid `eval`.) -/
theorem claim_C8 (a b c d p o : ℝ) (h1 : a < b) (h2 : b ≤ c) (h3 : c < d)
    (hp : 0 < p) (ho : p < o) :
    (TrapezoidWaveform.eval ⟨(a, b), (c, d)⟩ b = 1 ∧
      TrapezoidWaveform.eval ⟨(a, b), (c, d)⟩ c = 1 ∧
      (∀ t, b < t → t < c → TrapezoidWaveform.eval ⟨(a, b), (c, d)⟩ t = 1) ∧
      (∀ t, t < a → TrapezoidWaveform.eval ⟨(a, b), (c, d)⟩ t = 0) ∧
      (∀ t, d < t → TrapezoidWaveform.eval ⟨(a, b), (c, d)⟩ t = 0)) ∧
    (QuarterSineRampOnWaveform.eval ⟨(a, b), (c, d)⟩ b = 1 ∧
      QuarterSineRampOnWaveform.eval ⟨(a, b), (c, d)⟩ c = 1 ∧
      (∀ t, b < t → t < c → QuarterSineRampOnWaveform.eval ⟨(a, b), (c, d)⟩ t = 1) ∧
      (∀ t, t < a → QuarterSineRampOnWaveform.eval ⟨(a, b), (c, d)⟩ t = 0) ∧
      (∀ t, d < t → QuarterSineRampOnWaveform.eval ⟨(a, b), (c, d)⟩ t = 0)) ∧
    (HalfSineWaveform.eval ⟨(a, b), (c, d)⟩ b = 1 ∧
      HalfSineWaveform.eval ⟨(a, b), (c, d)⟩ c = 1 ∧
      (∀ t, b < t → t < c → HalfSineWaveform.eval ⟨(a, b), (c, d)⟩ t = 1) ∧
      (∀ t, t < a → HalfSineWaveform.eval ⟨(a, b), (c, d)⟩ t = 0) ∧
      (∀ t, d < t → HalfSineWaveform.eval ⟨(a, b), (c, d)⟩ t = 0)) ∧
    (TrapezoidWaveform.eval (TriangularWaveform.toTrapezoid p o) p = 1 ∧
      (∀ t, t < 0 → TrapezoidWaveform.eval (TriangularWaveform.toTrapezoid p o) t = 0) ∧
      (∀ t, o < t → TrapezoidWaveform.eval (TriangularWaveform.toTrapezoid p o) t = 0)) := by
  refine ⟨⟨trap_on_end a b c d h1, trap_off_start a b c d h1 h2 h3,
      fun t hb hc => trap_plateau a b c d t h1 hb hc,
      fun t ht => trap_before a b c d t ht,
      fun t ht => trap_after a b c d t h1 h2 h3 ht⟩,
    ⟨qsine_on_end a b c d h1, qsine_off_start a b c d h1 h2 h3,
      fun t hb hc => qsine_plateau a b c d t h1 hb hc,
      fun t ht => qsine_before a b c d t ht,
      fun t ht => qsine_after a b c d t h1 h2 h3 ht⟩,
    ⟨hsine_on_end a b c d h1, hsine_off_start a b c d h1 h2 h3,
      fun t hb hc => hsine_plateau a b c d t h1 hb hc,
      fun t ht => hsine_before a b c d t ht,
      fun t ht => hsine_after a b c d t h1 h2 h3 ht⟩,
    trap_on_end 0 p p o hp,
    fun t ht => trap_before 0 p p o t ht,
    fun t ht => trap_after 0 p p o t hp (le_refl p) ho ht⟩

/-- Witness for C8: the ramp intervals `[0,1]` and `[2,3]` (and the
triangular waveform with peak 1 and off-time 2), with the quantified parts
instantiated at 3/2, -1 and 4 (and at -1 and 3 for the triangle). -/
theorem claim_C8_witness :
    (0 : ℝ) < 1 ∧ (1 : ℝ) ≤ 2 ∧ (2 : ℝ) < 3 ∧
    TrapezoidWaveform.eval ⟨(0, 1), (2, 3)⟩ 1 = 1 ∧
    TrapezoidWaveform.eval ⟨(0, 1), (2, 3)⟩ 2 = 1 ∧
    TrapezoidWaveform.eval ⟨(0, 1), (2, 3)⟩ (3 / 2) = 1 ∧
    TrapezoidWaveform.eval ⟨(0, 1), (2, 3)⟩ (-1) = 0 ∧
    TrapezoidWaveform.eval ⟨(0, 1), (2, 3)⟩ 4 = 0 ∧
    QuarterSineRampOnWaveform.eval ⟨(0, 1), (2, 3)⟩ 1 = 1 ∧
    QuarterSineRampOnWaveform.eval ⟨(0, 1), (2, 3)⟩ 2 = 1 ∧
    QuarterSineRampOnWaveform.eval ⟨(0, 1), (2, 3)⟩ (3 / 2) = 1 ∧
    QuarterSineRampOnWaveform.eval ⟨(0, 1), (2, 3)⟩ (-1) = 0 ∧
    QuarterSineRampOnWaveform.eval ⟨(0, 1), (2, 3)⟩ 4 = 0 ∧
    HalfSineWaveform.eval ⟨(0, 1), (2, 3)⟩ 1 = 1 ∧
    HalfSineWaveform.eval ⟨(0, 1), (2, 3)⟩ 2 = 1 ∧
    HalfSineWaveform.eval ⟨(0, 1), (2, 3)⟩ (3 / 2) = 1 ∧
    HalfSineWaveform.eval ⟨(0, 1), (2, 3)⟩ (-1) = 0 ∧
    HalfSineWaveform.eval ⟨(0, 1), (2, 3)⟩ 4 = 0 ∧
    TrapezoidWaveform.eval (TriangularWaveform.toTrapezoid 1 2) 1 = 1 ∧
    TrapezoidWaveform.eval (TriangularWaveform.toTrapezoid 1 2) (-1) = 0 ∧
    TrapezoidWaveform.eval (TriangularWaveform.toTrapezoid 1 2) 3 = 0 := by
  have h := claim_C8 0 1 2 3 1 2 (by norm_num) (by norm_num) (by norm_num)
    (by norm_num) (by norm_num)
  refine ⟨by norm_num, by norm_num, by norm_num,
    h.1.1, h.1.2.1, h.1.2.2.1 (3 / 2) (by norm_num) (by norm_num),
    h.1.2.2.2.1 (-1) (by norm_num), h.1.2.2.2.2 4 (by norm_num),
    h.2.1.1, h.2.1.2.1, h.2.1.2.2.1 (3 / 2) (by norm_num) (by norm_num),
    h.2.1.2.2.2.1 (-1) (by norm_num), h.2.1.2.2.2.2 4 (by norm_num),
    h.2.2.1.1, h.2.2.1.2.1, h.2.2.1.2.2.1 (3 / 2) (by norm_num) (by norm_num),
    h.2.2.1.2.2.2.1 (-1) (by norm_num), h.2.2.1.2.2.2.2 4 (by norm_num),
    h.2.2.2.1, h.2.2.2.2.1 (-1) (by norm_num), h.2.2.2.2.2 3 (by norm_num)⟩

/-- Claim C5 (code bug): constructing a waveform with parameters inside
their stated domains does not succeed.  The base constructor with a valid
boolean flag and float `off_time` raises `NameError` (the `off_time`
setter assigns the undefined name `off_time` instead of `value`), so even
`StepOffWaveform()` cannot be built; and the `epsilon` setter accepts a
valid positive float but stores nothing, leaving the object without an
`_epsilon` attribute. -/
theorem claim_C5 :
    BaseWaveform.init (.bool false) (.float 0) (.float (1 / 1000000000)) =
      .error .nameError ∧
    StepOffWaveform.init (.float 0) = .error .nameError ∧
    setEpsilon { emptyAttrs with hifAttr := some true } (.float (1 / 2)) =
      .ok { emptyAttrs with hifAttr := some true } := by
  refine ⟨rfl, rfl, ?_⟩
  show (if (1 / 2 : ℚ) < 0 then Except.error PyError.valueError else _) = _
  rw [if_neg (by norm_num)]

/-- Claim C6 (code bug): constructing a VTEMWaveform with
`peak_time < off_time` does not succeed — the base constructor already
raises `NameError` in the `off_time` setter — and the `peak_time` setter
itself both uses a strict `value > off_time` comparison (so the equality
boundary passes validation) and then assigns the undefined name
`peak_time`, raising `NameError` instead of storing the value. -/
theorem claim_C6 :
    VTEMWaveform.init (.float (21 / 5000)) (.float (273 / 100000)) (.float 3) =
      .error .nameError ∧
    setPeakTime { emptyAttrs with hifAttr := some false, offTimeAttr := some 2 }
      (.float 2) = .error .nameError := by
  refine ⟨rfl, ?_⟩
  show (if (2 : ℚ) < 2 then Except.error PyError.valueError else _) = _
  norm_num
